import Mathlib

/-!
Verification development for a documentation chat backend.

The repository has two JavaScript entry points (an Express route in
`src/server.js` and a Netlify function in a second source file) that share one
retrieval pipeline: an SSE/streaming-RPC decoder (`parseSSEResponse`), an MCP
search client (`searchCerebrasDocs`), a URL selector (`analyzeSearchResults`),
a content fetcher (`fetchFullContent`) and an answer composer
(`getCerebrasResponse`).

The embedding below translates those functions directly.  External effects
(HTTP responses from the MCP server, the model replies, the per-URL fetches,
and the behaviour of the host `JSON.parse`) are inputs: they are passed as
oracle values/functions, so every definition is a computable function of its
inputs.  Strings are handled through structural character-list helpers that
mirror the JavaScript string primitives used by the source (`split`,
`startsWith`, `substring`, `trim`, `includes`), so that all definitions reduce
inside the kernel.
-/

/-- JavaScript/JSON values, as produced by `JSON.parse`. -/
inductive Json where
  | null : Json
  | bool (b : Bool) : Json
  | num (n : Int) : Json
  | str (s : String) : Json
  | arr (elems : List Json) : Json
  | obj (members : List (String × Json)) : Json

/-- Truthiness of a JSON value under JavaScript coercion (`if (v)`). -/
def jsTruthy : Json → Bool
  | Json.null => false
  | Json.bool b => b
  | Json.num n => !(n == 0)
  | Json.str s => !(s == "")
  | Json.arr _ => true
  | Json.obj _ => true

/-- First-match lookup of an object member (source objects have unique keys). -/
def lookupField (k : String) : List (String × Json) → Option Json
  | [] => none
  | (k2, v) :: rest => if k2 = k then some v else lookupField k rest

/-- JavaScript property access `j.k`: `some` if the member exists on an
object, `none` (i.e. `undefined`) otherwise. -/
def jsField (j : Json) (k : String) : Option Json :=
  match j with
  | Json.obj kvs => lookupField k kvs
  | _ => none

/-- Truthiness of a possibly-`undefined` value. -/
def jsTruthyOpt : Option Json → Bool
  | none => false
  | some j => jsTruthy j

/-- Splitter for `String.prototype.split` with a one-character separator. -/
def splitCharAux (sep : Char) : List Char → List Char → List String
  | [], acc => [String.mk acc.reverse]
  | c :: cs, acc =>
    if c = sep then String.mk acc.reverse :: splitCharAux sep cs []
    else splitCharAux sep cs (c :: acc)

/-- JavaScript `s.split(sep)` for a single-character separator. -/
def jsSplit (sep : Char) (s : String) : List String :=
  splitCharAux sep s.data []

/-- JavaScript `s.startsWith(p)`. -/
def startsWithStr (s p : String) : Bool :=
  p.data.isPrefixOf s.data

/-- JavaScript `s.substring(n)` (the sources only use it on ASCII prefixes,
where UTF-16 units and characters coincide). -/
def jsDrop (s : String) (n : Nat) : String :=
  String.mk (s.data.drop n)

/-- JavaScript `s.substring(0, n)`. -/
def jsTake (s : String) (n : Nat) : String :=
  String.mk (s.data.take n)

/-- The whitespace class of JavaScript regex `\s` and `trim`, restricted to
the ASCII characters that can occur here. -/
def jsIsSpace (c : Char) : Bool :=
  c = ' ' || c = '\t' || c = '\n' || c = '\r' || c = Char.ofNat 11 || c = Char.ofNat 12

/-- JavaScript `s.trim()`. -/
def jsTrim (s : String) : String :=
  String.mk (((s.data.dropWhile jsIsSpace).reverse.dropWhile jsIsSpace).reverse)

/-- Occurrence of one character list inside another, scanning left to right. -/
def containsSub (pat : List Char) : List Char → Bool
  | [] => pat.isPrefixOf []
  | c :: cs => pat.isPrefixOf (c :: cs) || containsSub pat cs

/-- JavaScript `s.includes(p)` (substring containment). -/
def jsIncludes (s p : String) : Bool :=
  containsSub p.data s.data

/-- JavaScript `Array.prototype.join(sep)` on an array of strings. -/
def joinSep (sep : String) : List String → String
  | [] => ""
  | [x] => x
  | x :: xs => x ++ sep ++ joinSep sep xs

/-- Embedding of `parseSSEResponse`'s scanning loop over the split lines:
for each line starting with the data marker, try `JSON.parse` on the rest of
the line; a successful parse returns immediately, a parse error is logged and
the loop continues.  `jp` is the `JSON.parse` oracle (`none` models a throw). -/
def scanDataLines (jp : String → Option Json) : List String → Option Json
  | [] => none
  | line :: rest =>
    if startsWithStr line "data: " then
      match jp (jsDrop line 6) with
      | some v => some v
      | none => scanDataLines jp rest
    else scanDataLines jp rest

/-- Embedding of `parseSSEResponse(sseData)` (`src/server.js` lines 23-38).
The input is `none` when `sseData` is not a string; the guard
`!sseData || typeof sseData !== 'string'` also rejects the empty string.
A JavaScript caller cannot distinguish a returned JSON `null` payload from the
`null` used for "no payload"; the embedding keeps them apart as
`some Json.null` vs `none`, which coincide under `jsTruthy` downstream. -/
def parseSSEResponse (jp : String → Option Json) (sseData : Option String) : Option Json :=
  match sseData with
  | none => none
  | some s => if s = "" then none else scanDataLines jp (jsSplit '\n' s)

/-- A concrete instance of the `JSON.parse` oracle that agrees with JavaScript
`JSON.parse` on unsigned decimal integer literals and throws (returns `none`)
on every other input used by the concrete witnesses below. -/
def natDigitsAux : List Char → Nat → Option Nat
  | [], acc => some acc
  | c :: cs, acc =>
    if '0' ≤ c ∧ c ≤ '9' then natDigitsAux cs (acc * 10 + (c.toNat - '0'.toNat))
    else none

/-- See `natDigitsAux`: parse oracle for unsigned decimal integer payloads. -/
def toyJsonParse (s : String) : Option Json :=
  match s.data with
  | [] => none
  | _ => (natDigitsAux s.data 0).map (fun n => Json.num (Int.ofNat n))

theorem scanDataLines_eq_head_filterMap (jp : String → Option Json) (ls : List String) :
    scanDataLines jp ls =
      (ls.filterMap (fun l => if startsWithStr l "data: " then jp (jsDrop l 6) else none)).head? := by
  induction ls with
  | nil => rfl
  | cons l rest ih =>
    by_cases h : startsWithStr l "data: " = true
    · cases hj : jp (jsDrop l 6) with
      | none => simp [scanDataLines, List.filterMap_cons, h, hj, ih]
      | some v => simp [scanDataLines, List.filterMap_cons, h, hj]
    · simp [scanDataLines, List.filterMap_cons, h, ih]

/-- C2 (amended): for every `JSON.parse` behaviour and every input, the SSE
decoder returns the payload of the first data-marked line whose JSON parses
successfully; data-marked lines with malformed JSON are skipped without
raising (rather than terminating the scan), and the decoder returns absent
exactly when no data-marked line carries parsable JSON.  Non-string and empty
inputs yield absent. -/
theorem parseSSE_first_parsable_data_line (jp : String → Option Json) :
    (∀ s : String,
      parseSSEResponse jp (some s) =
        ((jsSplit '\n' s).filterMap
          (fun l => if startsWithStr l "data: " then jp (jsDrop l 6) else none)).head?) ∧
    parseSSEResponse jp none = none := by
  constructor
  · intro s
    by_cases h : s = ""
    · subst h
      rfl
    · simp [parseSSEResponse, h, scanDataLines_eq_head_filterMap]
  · rfl

/-- C2 (counterexample): on input whose first data-marked line holds malformed
JSON and whose second data-marked line holds `5`, the decoder returns the
payload `5` of the second line — it neither returns absent nor ignores the
later data-marked lines, contrary to the claim. -/
theorem parseSSE_malformed_first_line_not_absent :
    parseSSEResponse toyJsonParse (some "data: x\ndata: 5") = some (Json.num 5) ∧
    parseSSEResponse toyJsonParse (some "data: x\ndata: 5") ≠ none := by
  constructor
  · rfl
  · intro h
    rw [show parseSSEResponse toyJsonParse (some "data: x\ndata: 5") = some (Json.num 5) from rfl] at h
    exact Option.noConfusion h

mutual

/-- JavaScript `String(v)` / template-literal conversion of a JSON value
(`Array.prototype.toString` joins element conversions with commas, rendering
`null` elements as empty). -/
def jsToDisplayString : Json → String
  | Json.null => "null"
  | Json.bool b => cond b "true" "false"
  | Json.num n => toString n
  | Json.str s => s
  | Json.arr xs => jsDisplayList xs
  | Json.obj _ => "[object Object]"

def jsDisplayElem : Json → String
  | Json.null => ""
  | Json.bool b => cond b "true" "false"
  | Json.num n => toString n
  | Json.str s => s
  | Json.arr xs => jsDisplayList xs
  | Json.obj _ => "[object Object]"

def jsDisplayList : List Json → String
  | [] => ""
  | [j] => jsDisplayElem j
  | j :: js => jsDisplayElem j ++ "," ++ jsDisplayList js

end

/-- Minimal JSON string escaping as performed by `JSON.stringify` on the
characters that occur in this development. -/
def escapeJsonChar (c : Char) : String :=
  if c = '"' then "\\\""
  else if c = '\\' then "\\\\"
  else if c = '\n' then "\\n"
  else if c = '\r' then "\\r"
  else if c = '\t' then "\\t"
  else String.mk [c]

/-- See `escapeJsonChar`. -/
def escapeJsonString (s : String) : String :=
  joinSep "" (s.data.map escapeJsonChar)

mutual

/-- JavaScript `JSON.stringify` on JSON values. -/
def jsonStringify : Json → String
  | Json.null => "null"
  | Json.bool b => cond b "true" "false"
  | Json.num n => toString n
  | Json.str s => "\"" ++ escapeJsonString s ++ "\""
  | Json.arr xs => "[" ++ jsonStringifyElems xs ++ "]"
  | Json.obj kvs => "\x7b" ++ jsonStringifyMembers kvs ++ "\x7d"

def jsonStringifyElems : List Json → String
  | [] => ""
  | [j] => jsonStringify j
  | j :: js => jsonStringify j ++ "," ++ jsonStringifyElems js

def jsonStringifyMembers : List (String × Json) → String
  | [] => ""
  | [(k, v)] => "\"" ++ escapeJsonString k ++ "\":" ++ jsonStringify v
  | (k, v) :: kvs =>
    "\"" ++ escapeJsonString k ++ "\":" ++ jsonStringify v ++ "," ++ jsonStringifyMembers kvs

end

/-- The fixed text returned by the search client when the MCP server was
reached but the decoded response does not carry a usable result
(`src/server.js` line 122). -/
def noDocsSentinel : String := "No relevant documentation found for your query."

/-- Filter applied to the entries of `searchData.result.content`:
`item.type === 'text' && item.text` (`src/server.js` line 113). -/
def isTextItem (item : Json) : Bool :=
  (match jsField item "type" with
   | some (Json.str t) => t = "text"
   | _ => false) && jsTruthyOpt (jsField item "text")

/-- Projection `item => item.text` followed by the string coercion that
`Array.prototype.join` applies to each element (`src/server.js` lines 114-115).
The `none` arm is unreachable after `isTextItem`. -/
def itemText (item : Json) : String :=
  match jsField item "text" with
  | some t => jsToDisplayString t
  | none => ""

/-- Embedding of the tail of `searchCerebrasDocs`'s `try` block
(`src/server.js` lines 104-122): decode the query response and, when
`searchData && searchData.result && searchData.result.content` holds and the
content is an array, join the text entries; otherwise return the sentinel.
Once the three awaits have resolved, this part always returns a string. -/
def extractSearchText (jp : String → Option Json) (searchBody : Option String) : String :=
  match parseSSEResponse jp searchBody with
  | some searchData =>
    if jsTruthy searchData then
      match jsField searchData "result" with
      | some resultVal =>
        if jsTruthy resultVal then
          match jsField resultVal "content" with
          | some contents =>
            if jsTruthy contents then
              match contents with
              | Json.arr items =>
                joinSep "\n\n---\n\n" ((items.filter isTextItem).map itemText)
              | _ => noDocsSentinel
            else noDocsSentinel
          | none => noDocsSentinel
        else noDocsSentinel
      | none => noDocsSentinel
    else noDocsSentinel
  | none => noDocsSentinel

/-- Embedding of `searchCerebrasDocs(query)` (`src/server.js` lines 41-133).
The three `axios.post` round-trips (handshake, `tools/list`, `tools/call`) are
oracles `initRes`, `toolsRes`, `searchRes`: `none` models a transport error
thrown at that step (caught by the surrounding `try`, which returns `null`),
and `some d` a resolved response whose `data` field is `d` (`none` inside when
`data` is not a string).  The decoded handshake and tools responses are only
logged by the source, so they do not appear in the result; `query` only shapes
the outbound request body. -/
def searchCerebrasDocs (jp : String → Option Json) (query : String)
    (initRes toolsRes searchRes : Option (Option String)) : Option String :=
  match initRes with
  | none => none
  | some _initData =>
  match toolsRes with
  | none => none
  | some _toolsData =>
  match searchRes with
  | none => none
  | some searchBody => some (extractSearchText jp searchBody)

/-- Decoded query response has the shape the extraction path requires:
truthy envelope, truthy `result` member, truthy `result.content` member that
is an array. -/
def hasContentArray (searchData : Json) : Bool :=
  jsTruthy searchData &&
  (match jsField searchData "result" with
   | some resultVal =>
     jsTruthy resultVal &&
     (match jsField resultVal "content" with
      | some contents =>
        jsTruthy contents && (match contents with | Json.arr _ => true | _ => false)
      | none => false)
   | none => false)

/-- C3 (amended): the search client returns absent (null) exactly when a
transport error was thrown at one of the three protocol steps (handshake,
tools/list, query); a query response that decodes but lacks the expected
`result.content` array shape instead yields the fixed sentinel string
"No relevant documentation found for your query." (the claim quoted the
sentinel as "no documentation found"). -/
theorem searchDocs_failure_modes (jp : String → Option Json) (query : String)
    (initRes toolsRes searchRes : Option (Option String)) :
    (searchCerebrasDocs jp query initRes toolsRes searchRes = none ↔
      (initRes = none ∨ toolsRes = none ∨ searchRes = none)) ∧
    (∀ d1 d2 d3 searchData,
      initRes = some d1 → toolsRes = some d2 → searchRes = some d3 →
      parseSSEResponse jp d3 = some searchData →
      hasContentArray searchData = false →
      searchCerebrasDocs jp query initRes toolsRes searchRes = some noDocsSentinel) := by
  constructor
  · cases initRes <;> cases toolsRes <;> cases searchRes <;> simp [searchCerebrasDocs]
  · intro d1 d2 d3 searchData h1 h2 h3 hparse hshape
    subst h1; subst h2; subst h3
    have hext : extractSearchText jp d3 = noDocsSentinel := by
      simp only [extractSearchText, hparse]
      simp only [hasContentArray] at hshape
      by_cases ht : jsTruthy searchData = true
      · rw [ht, Bool.true_and] at hshape
        cases hres : jsField searchData "result" with
        | none => simp [ht, hres]
        | some resultVal =>
          simp only [hres] at hshape
          by_cases htr : jsTruthy resultVal = true
          · rw [htr, Bool.true_and] at hshape
            cases hcon : jsField resultVal "content" with
            | none => simp [ht, hres, htr, hcon]
            | some contents =>
              simp only [hcon] at hshape
              by_cases htc : jsTruthy contents = true
              · rw [htc, Bool.true_and] at hshape
                cases contents <;> simp_all [ht, hres, htr, hcon]
              · have htc' : jsTruthy contents = false := by
                  cases hv : jsTruthy contents
                  · rfl
                  · exact absurd hv htc
                simp [ht, hres, htr, hcon, htc']
          · have htr' : jsTruthy resultVal = false := by
              cases hv : jsTruthy resultVal
              · rfl
              · exact absurd hv htr
            simp [ht, hres, htr']
      · have ht' : jsTruthy searchData = false := by
          cases hv : jsTruthy searchData
          · rfl
          · exact absurd hv ht
        simp [ht']
    simp [searchCerebrasDocs, hext]

/-- C3 (counterexample): with the query response decoding to the JSON number
`5` (well decoded, wrong shape), the client returns the fixed string
"No relevant documentation found for your query.", which is not the string
"no documentation found" quoted by the claim. -/
theorem searchDocs_sentinel_text_differs :
    searchCerebrasDocs toyJsonParse "q" (some (some "")) (some (some "")) (some (some "data: 5")) =
      some "No relevant documentation found for your query." ∧
    noDocsSentinel ≠ "no documentation found" := by
  constructor
  · rfl
  · intro h
    exact absurd h (by decide)

/-- C3 (witness): the amended theorem applied at concrete inputs — a
transport error at the handshake yields absent, and a decoded but misshapen
query response yields the sentinel. -/
theorem searchDocs_failure_modes_witness :
    searchCerebrasDocs toyJsonParse "q" none (some (some "")) (some (some "")) = none ∧
    searchCerebrasDocs toyJsonParse "q" (some (some "")) (some (some "")) (some (some "data: 5")) =
      some noDocsSentinel :=
  ⟨(searchDocs_failure_modes toyJsonParse "q" none (some (some "")) (some (some ""))).1.mpr
      (Or.inl rfl),
   (searchDocs_failure_modes toyJsonParse "q" (some (some "")) (some (some ""))
      (some (some "data: 5"))).2
     (some "") (some "") (some "data: 5") (Json.num 5) rfl rfl rfl rfl rfl⟩

/-- Accumulator record of `analyzeSearchResults`'s parsing loop
(`src/server.js` lines 139-153): a partially built search item; fields are
`none` when the corresponding JavaScript property is still `undefined`. -/
structure SearchItem where
  title : Option String
  link : Option String
  content : Option String
deriving DecidableEq

/-- JavaScript truthiness of the accumulator's `title` property: the flush
guard `if (currentItem.title)` is false both when the property is still
`undefined` and when it holds the empty string (an empty trimmed title). -/
def hasTruthyTitle : Option String → Bool
  | none => false
  | some t => !(t == "")

/-- One iteration of the `for (const line of lines)` loop: the committed list
and the current accumulator, updated by one line.  A `Title:` line pushes the
previous accumulator exactly when its title is truthy (defined and
non-empty, mirroring `if (currentItem.title)`) and starts a fresh one with
the trimmed title; `Link:`/`Content:` lines set those fields on the current
accumulator; any other line leaves the state unchanged. -/
def searchItemStep (st : List SearchItem × SearchItem) (line : String) :
    List SearchItem × SearchItem :=
  if startsWithStr line "Title:" then
    ((if hasTruthyTitle st.2.title then st.1 ++ [st.2] else st.1),
     ⟨some (jsTrim (jsDrop line 6)), none, none⟩)
  else if startsWithStr line "Link:" then
    (st.1, ⟨st.2.title, some (jsTrim (jsDrop line 5)), st.2.content⟩)
  else if startsWithStr line "Content:" then
    (st.1, ⟨st.2.title, st.2.link, some (jsTrim (jsDrop line 8))⟩)
  else st

/-- Embedding of the parsing phase of `analyzeSearchResults`
(`src/server.js` lines 139-153): fold `searchItemStep` over the lines of the
search text, then push the final accumulator if its title is truthy
(`if (currentItem.title)`, line 153). -/
def parseSearchItems (searchResults : String) : List SearchItem :=
  let st := (jsSplit '\n' searchResults).foldl searchItemStep ([], ⟨none, none, none⟩)
  if hasTruthyTitle st.2.title then st.1 ++ [st.2] else st.1

/-- The claim's description of the scan, written as a direct recursion with a
single accumulator: a `Title:` line flushes the previous accumulator iff it
has a (truthy, i.e. non-empty) title and restarts; `Link:`/`Content:` set
fields; end of input flushes the final accumulator iff it has such a title. -/
def scanItemsRec : List String → SearchItem → List SearchItem
  | [], cur => if hasTruthyTitle cur.title then [cur] else []
  | line :: rest, cur =>
    if startsWithStr line "Title:" then
      (if hasTruthyTitle cur.title then [cur] else []) ++
        scanItemsRec rest ⟨some (jsTrim (jsDrop line 6)), none, none⟩
    else if startsWithStr line "Link:" then
      scanItemsRec rest ⟨cur.title, some (jsTrim (jsDrop line 5)), cur.content⟩
    else if startsWithStr line "Content:" then
      scanItemsRec rest ⟨cur.title, cur.link, some (jsTrim (jsDrop line 8))⟩
    else scanItemsRec rest cur

theorem foldl_searchItemStep_eq_scanItemsRec (lines : List String) :
    ∀ (acc : List SearchItem) (cur : SearchItem),
      (let st := lines.foldl searchItemStep (acc, cur)
       if hasTruthyTitle st.2.title then st.1 ++ [st.2] else st.1) =
        acc ++ scanItemsRec lines cur := by
  induction lines with
  | nil =>
    intro acc cur
    simp only [List.foldl_nil, scanItemsRec]
    by_cases h : hasTruthyTitle cur.title = true <;> simp [h]
  | cons line rest ih =>
    intro acc cur
    simp only [List.foldl_cons, scanItemsRec, searchItemStep]
    by_cases h1 : startsWithStr line "Title:" = true
    · simp only [h1, if_true]
      by_cases h2 : hasTruthyTitle cur.title = true <;>
        simp [h2, ih, List.append_assoc]
    · by_cases h2 : startsWithStr line "Link:" = true
      · simp [h1, h2, ih]
      · by_cases h3 : startsWithStr line "Content:" = true
        · simp [h1, h2, h3, ih]
        · simp [h1, h2, h3, ih]

/-- C7: the source's accumulate-then-flush loop over the lines of the search
text computes exactly the claim's single-accumulator scan: a `Title:` line
pushes the previous accumulator iff it has a title — the source's truthiness
guard `if (currentItem.title)`, so an empty trimmed title counts as having
none — and starts a fresh one with the trimmed title, `Link:`/`Content:`
lines set those fields, and the final accumulator is pushed at end of input
under the same guard. -/
theorem parseSearchItems_eq_scan (searchResults : String) :
    parseSearchItems searchResults =
      scanItemsRec (jsSplit '\n' searchResults) ⟨none, none, none⟩ := by
  have h := foldl_searchItemStep_eq_scanItemsRec (jsSplit '\n' searchResults) []
    ⟨none, none, none⟩
  simpa [parseSearchItems] using h

/-- Template-literal rendering of a possibly-`undefined` string property. -/
def jsTemplate : Option String → String
  | some s => s
  | none => "undefined"

/-- One numbered block of the analysis prompt (`src/server.js` lines 163-167). -/
def searchItemBlock (i : Nat) (item : SearchItem) : String :=
  "\n" ++ toString (i + 1) ++ ". Title: " ++ jsTemplate item.title ++
    "\n   URL: " ++ jsTemplate item.link ++
    "\n   Summary: " ++ jsTemplate item.content ++ "\n"

/-- The prompt sent to the selection model (`src/server.js` lines 158-170). -/
def analysisPrompt (userQuery : String) (searchItems : List SearchItem) : String :=
  "Based on the user\x27s question and the search results below, identify which documentation pages would be most relevant to fetch in full. Return ONLY a JSON array of URLs (maximum 3) that would best help answer the question.\n\nUser Question: \"" ++
    userQuery ++ "\"\n\nSearch Results:\n" ++
    joinSep "\n" (searchItems.enum.map (fun p => searchItemBlock p.1 p.2)) ++
    "\n\nReturn ONLY a JSON array of URLs, like: [\"url1\", \"url2\"]\nIf none are relevant enough to fetch, return: []"

/-- The regex match `urlsText.match(/\[.*\]/s)` (`src/server.js` line 193):
with `.` matching newlines and a greedy `.*`, the match — when one exists —
runs from the first opening bracket to the last closing bracket after it. -/
def extractBracket (s : String) : Option String :=
  match s.data.findIdx? (fun c => c = '['), s.data.reverse.findIdx? (fun c => c = ']') with
  | some i, some jr =>
    let j := s.data.length - 1 - jr
    if i < j then some (String.mk ((s.data.drop i).take (j + 1 - i))) else none
  | _, _ => none

/-- Embedding of `analyzeSearchResults(userQuery, searchResults)`
(`src/server.js` lines 136-207).  The selection model call is the oracle
`selOracle`, applied to the prompt built from the parsed items: `some reply`
is the trimmed-ready content of `choices[0].message.content`, while `none`
models any throw inside the outer `try` (model call failed, or `choices[0]`
missing), which the source absorbs into an empty selection.  The reply's
first bracket-delimited substring is parsed with `jp` (`JSON.parse`); a parse
throw or a non-array value yields the empty selection, and an array is
truncated to its first three entries. -/
def analyzeSearchResults (jp : String → Option Json) (selOracle : String → Option String)
    (userQuery searchResults : String) : List Json :=
  let searchItems := parseSearchItems searchResults
  match selOracle (analysisPrompt userQuery searchItems) with
  | none => []
  | some reply =>
    let urlsText := jsTrim reply
    match extractBracket urlsText with
    | some frag =>
      match jp frag with
      | some (Json.arr urls) => urls.take 3
      | some _ => []
      | none => []
    | none => []

/-- C4: for every query, search text, `JSON.parse` behaviour and model
outcome, the selection has at most 3 entries; and the selection is empty
whenever the model call failed, the reply has no bracket-delimited substring,
or the bracketed substring does not parse to a JSON array. -/
theorem selectUrls_bounded (jp : String → Option Json) (selOracle : String → Option String)
    (userQuery searchResults : String) :
    (analyzeSearchResults jp selOracle userQuery searchResults).length ≤ 3 ∧
    (selOracle (analysisPrompt userQuery (parseSearchItems searchResults)) = none →
      analyzeSearchResults jp selOracle userQuery searchResults = []) ∧
    (∀ reply,
      selOracle (analysisPrompt userQuery (parseSearchItems searchResults)) = some reply →
      extractBracket (jsTrim reply) = none →
      analyzeSearchResults jp selOracle userQuery searchResults = []) ∧
    (∀ reply frag,
      selOracle (analysisPrompt userQuery (parseSearchItems searchResults)) = some reply →
      extractBracket (jsTrim reply) = some frag →
      (∀ urls, jp frag ≠ some (Json.arr urls)) →
      analyzeSearchResults jp selOracle userQuery searchResults = []) := by
  refine ⟨?_, ?_, ?_, ?_⟩
  · simp only [analyzeSearchResults]
    cases selOracle (analysisPrompt userQuery (parseSearchItems searchResults)) with
    | none => simp
    | some reply =>
      cases hb : extractBracket (jsTrim reply) with
      | none => simp [hb]
      | some frag =>
        cases hj : jp frag with
        | none => simp [hb, hj]
        | some v =>
          cases v <;> simp [hb, hj, List.length_take]
  · intro h
    simp [analyzeSearchResults, h]
  · intro reply h hb
    simp [analyzeSearchResults, h, hb]
  · intro reply frag h hb hn
    simp only [analyzeSearchResults, h, hb]
    cases hj : jp frag with
    | none => simp
    | some v =>
      cases v with
      | arr urls => exact absurd hj (hn urls)
      | null => simp
      | bool b => simp
      | num n => simp
      | str s => simp
      | obj kvs => simp

/-- C4 (witness): with a model reply that is plain prose without brackets,
the selection is empty (and in particular within the length bound). -/
theorem selectUrls_bounded_witness :
    analyzeSearchResults toyJsonParse (fun _ => some "no relevant pages") "q" "" = [] ∧
    (analyzeSearchResults toyJsonParse (fun _ => some "no relevant pages") "q" "").length ≤ 3 :=
  ⟨(selectUrls_bounded toyJsonParse (fun _ => some "no relevant pages") "q" "").2.2.1
      "no relevant pages" rfl rfl,
   (selectUrls_bounded toyJsonParse (fun _ => some "no relevant pages") "q" "").1⟩

/-- Global replace of regex `<[^>]*>` by a single space, as a one-pass state
machine over the characters: outside a candidate tag, characters pass
through; `<` opens a buffered candidate which is replaced by one space at the
first `>`, or emitted literally if the input ends first. -/
def stripTagsGo : Option (List Char) → List Char → List Char
  | none, [] => []
  | none, c :: cs => if c = '<' then stripTagsGo (some [c]) cs else c :: stripTagsGo none cs
  | some buf, [] => buf.reverse
  | some buf, c :: cs =>
    if c = '>' then ' ' :: stripTagsGo none cs else stripTagsGo (some (c :: buf)) cs

/-- JavaScript `s.replace(/<[^>]*>/g, ' ')`. -/
def stripTags (s : String) : String :=
  String.mk (stripTagsGo none s.data)

/-- Collapse of whitespace runs: each maximal run of `\s` characters becomes
one space (the flag records whether the previous character was whitespace). -/
def collapseWsGo : Bool → List Char → List Char
  | _, [] => []
  | prevSp, c :: cs =>
    if jsIsSpace c then
      (if prevSp then collapseWsGo true cs else ' ' :: collapseWsGo true cs)
    else c :: collapseWsGo false cs

/-- JavaScript `s.replace(/\s+/g, ' ')`. -/
def collapseWs (s : String) : String :=
  String.mk (collapseWsGo false s.data)

/-- The `response.data` of one resolved per-URL fetch: a textual body or a
structured (JSON) body. -/
inductive FetchData where
  | str (s : String)
  | json (j : Json)

/-- JavaScript truthiness of `response.data` (`if (response.data)`,
`src/server.js` line 225). -/
def truthyFetchData : FetchData → Bool
  | FetchData.str s => !(s == "")
  | FetchData.json j => jsTruthy j

/-- Per-URL content normalisation (`src/server.js` lines 227-229): strip
markup and collapse whitespace for a textual body, `JSON.stringify` for a
structured one. -/
def cleanFetchData : FetchData → String
  | FetchData.str s => collapseWs (stripTags s)
  | FetchData.json j => jsonStringify j

/-- The wrapped, length-capped entry pushed for one successful URL
(`src/server.js` lines 232-234). -/
def fetchEntry (url : Json) (d : FetchData) : String :=
  "\n\n=== Content from " ++ jsToDisplayString url ++ " ===\n" ++
    jsTake (cleanFetchData d) 10000 ++ "\n"

/-- One iteration of `fetchFullContent`'s loop body for one URL: `none` when
the fetch threw (inner `catch`: log and skip) or the body was falsy, `some`
the pushed entry otherwise.  `fetchOracle` models `axios.get`: `none` is a
throw, `some d` a resolved response with `data` equal to `d`. -/
def fetchStep (fetchOracle : Json → Option FetchData) (url : Json) : Option String :=
  match fetchOracle url with
  | some d => if truthyFetchData d then some (fetchEntry url d) else none
  | none => none

/-- Embedding of `fetchFullContent(urls)` (`src/server.js` lines 210-246):
sequentially visit the URLs (which are whatever values the selection array
held), collect the entries of the successful fetches in order, and return
their separator-joined concatenation, or `null` when nothing was collected. -/
def fetchFullContent (fetchOracle : Json → Option FetchData) (urls : List Json) : Option String :=
  let contents := urls.filterMap (fetchStep fetchOracle)
  if contents.length > 0 then some (joinSep "\n---\n" contents) else none

/-- A per-URL outcome that contributes content: the fetch resolved and its
body was truthy. -/
def goodFetch : Option FetchData → Bool
  | some d => truthyFetchData d
  | none => false

theorem fetchStep_eq_none_iff (fetchOracle : Json → Option FetchData) (url : Json) :
    fetchStep fetchOracle url = none ↔ goodFetch (fetchOracle url) = false := by
  cases h : fetchOracle url with
  | none => simp [fetchStep, goodFetch, h]
  | some d =>
    cases ht : truthyFetchData d <;> simp [fetchStep, goodFetch, h, ht]

theorem joinSep_cons (sep x : String) (l : List String) :
    joinSep sep (x :: l) = (match l with
      | [] => x
      | _ :: _ => x ++ sep ++ joinSep sep l) := by
  cases l <;> rfl

theorem strDataAppend (s t : String) : (s ++ t).data = s.data ++ t.data := by
  cases s
  cases t
  rfl

theorem str_eq_empty_of_data (s : String) (h : s.data = []) : s = "" := by
  cases s with
  | mk l =>
    have h2 : l = [] := h
    subst h2
    rfl

theorem append_ne_empty_left (s t : String) (h : s ≠ "") : s ++ t ≠ "" := by
  intro he
  apply h
  apply str_eq_empty_of_data
  have hd : (s ++ t).data = ([] : List Char) := by rw [he]
  rw [strDataAppend] at hd
  exact (List.append_eq_nil.mp hd).1

theorem fetchEntry_ne_empty (url : Json) (d : FetchData) : fetchEntry url d ≠ "" :=
  append_ne_empty_left _ _ (append_ne_empty_left _ _ (append_ne_empty_left _ _
    (append_ne_empty_left _ _ (by decide))))

theorem fetchFullContent_cons_bad (fetchOracle : Json → Option FetchData) (u : Json)
    (rest : List Json) (h : goodFetch (fetchOracle u) = false) :
    fetchFullContent fetchOracle (u :: rest) = fetchFullContent fetchOracle rest := by
  have hstep : fetchStep fetchOracle u = none := (fetchStep_eq_none_iff fetchOracle u).mpr h
  simp [fetchFullContent, List.filterMap_cons, hstep]

theorem fetchFullContent_cons_good (fetchOracle : Json → Option FetchData) (u : Json)
    (d : FetchData) (rest : List Json) (hd : fetchOracle u = some d)
    (ht : truthyFetchData d = true) :
    fetchFullContent fetchOracle (u :: rest) =
      some (match fetchFullContent fetchOracle rest with
            | none => fetchEntry u d
            | some r => fetchEntry u d ++ "\n---\n" ++ r) := by
  have hstep : fetchStep fetchOracle u = some (fetchEntry u d) := by
    simp [fetchStep, hd, ht]
  simp only [fetchFullContent, List.filterMap_cons, hstep]
  cases hrest : rest.filterMap (fetchStep fetchOracle) with
  | nil => simp [joinSep_cons]
  | cons y ys => simp [joinSep_cons]

theorem fetchFullContent_none_iff (fetchOracle : Json → Option FetchData) (urls : List Json) :
    fetchFullContent fetchOracle urls = none ↔
      ∀ u ∈ urls, goodFetch (fetchOracle u) = false := by
  have key : (urls.filterMap (fetchStep fetchOracle) = []) ↔
      (∀ u ∈ urls, goodFetch (fetchOracle u) = false) := by
    rw [List.filterMap_eq_nil_iff]
    constructor
    · intro h u hu
      exact (fetchStep_eq_none_iff fetchOracle u).mp (h u hu)
    · intro h u hu
      exact (fetchStep_eq_none_iff fetchOracle u).mpr (h u hu)
  rw [← key]
  simp only [fetchFullContent]
  cases hc : urls.filterMap (fetchStep fetchOracle) with
  | nil => simp [hc]
  | cons y ys => simp [hc]

theorem fetchFullContent_ne_empty (fetchOracle : Json → Option FetchData) :
    ∀ (urls : List Json) (fc : String),
      fetchFullContent fetchOracle urls = some fc → fc ≠ "" := by
  intro urls
  induction urls with
  | nil => intro fc h; exact absurd h (by simp [fetchFullContent])
  | cons u rest ih =>
    intro fc h
    cases hg : goodFetch (fetchOracle u) with
    | false =>
      rw [fetchFullContent_cons_bad fetchOracle u rest hg] at h
      exact ih fc h
    | true =>
      cases hu : fetchOracle u with
      | none => rw [hu] at hg; exact Bool.noConfusion hg
      | some d =>
        have ht : truthyFetchData d = true := by rw [hu] at hg; exact hg
        rw [fetchFullContent_cons_good fetchOracle u d rest hu ht] at h
        cases hrest : fetchFullContent fetchOracle rest with
        | none =>
          rw [hrest] at h
          have : fc = fetchEntry u d := by
            have := Option.some.inj h
            simp at this
            exact this.symm
          rw [this]
          exact fetchEntry_ne_empty u d
        | some r =>
          rw [hrest] at h
          have : fc = fetchEntry u d ++ "\n---\n" ++ r := by
            have := Option.some.inj h
            simp at this
            exact this.symm
          rw [this]
          exact append_ne_empty_left _ _ (append_ne_empty_left _ _ (fetchEntry_ne_empty u d))

/-- C5 (amended): the batch fetch visits URLs in order, and a URL whose fetch
threw — or whose fetch resolved with a falsy (e.g. empty) body — is skipped
without aborting the batch.  The result is absent exactly when no URL
contributed content (every URL threw or had a falsy body, or the list was
empty); otherwise it is the separator-joined concatenation, in order, of the
wrapped entries of the URLs that resolved with truthy bodies.  (The claim
spoke of "every URL failed": a fetch that resolves with an empty body is not
a failure but still contributes nothing.) -/
theorem fetchFullContent_batch (fetchOracle : Json → Option FetchData) (urls : List Json) :
    (fetchFullContent fetchOracle urls = none ↔
      ∀ u ∈ urls, goodFetch (fetchOracle u) = false) ∧
    (∀ u rest, goodFetch (fetchOracle u) = false →
      fetchFullContent fetchOracle (u :: rest) = fetchFullContent fetchOracle rest) ∧
    (∀ u d rest, fetchOracle u = some d → truthyFetchData d = true →
      fetchFullContent fetchOracle (u :: rest) =
        some (match fetchFullContent fetchOracle rest with
              | none => fetchEntry u d
              | some r => fetchEntry u d ++ "\n---\n" ++ r)) :=
  ⟨fetchFullContent_none_iff fetchOracle urls,
   fun u rest h => fetchFullContent_cons_bad fetchOracle u rest h,
   fun u d rest hd ht => fetchFullContent_cons_good fetchOracle u d rest hd ht⟩

/-- Fetch oracle for the C5 counterexample: every fetch resolves successfully
but with an empty body. -/
def emptyBodyFetch : Json → Option FetchData := fun _ => some (FetchData.str "")

/-- C5 (counterexample): with one URL whose fetch succeeds but returns an
empty body, the batch returns absent although the input list is non-empty and
no URL failed — refuting "absent if and only if every URL failed or the input
list was empty". -/
theorem fetchFullContent_empty_body_not_failed :
    fetchFullContent emptyBodyFetch [Json.str "u"] = none ∧
    emptyBodyFetch (Json.str "u") ≠ none ∧
    ([Json.str "u"] : List Json) ≠ [] := by
  refine ⟨rfl, ?_, ?_⟩
  · intro h
    exact Option.noConfusion h
  · intro h
    exact List.noConfusion h

/-- Fetch oracle for the C5 witness: the URL string "a" fails (throws), any
other string URL succeeds with a small HTML body. -/
def skipOneFetch : Json → Option FetchData := fun u =>
  match u with
  | Json.str s => if s = "a" then none else some (FetchData.str "<p>hi</p>")
  | _ => none

/-- C5 (witness): the amended theorem applied at concrete inputs — the
failing URL "a" is skipped and the batch continues with the remaining URL. -/
theorem fetchFullContent_batch_witness :
    goodFetch (skipOneFetch (Json.str "a")) = false ∧
    fetchFullContent skipOneFetch [Json.str "a", Json.str "b"] =
      fetchFullContent skipOneFetch [Json.str "b"] :=
  ⟨rfl,
   (fetchFullContent_batch skipOneFetch [Json.str "a", Json.str "b"]).2.1
     (Json.str "a") [Json.str "b"] rfl⟩

/-- Outcome of one chat-completion call to the model service:
`ok choices` is a resolved completion whose `choices` array holds the listed
message contents, `throw msg` an error thrown by the SDK whose `.message` is
`msg`. -/
inductive ModelCall where
  | ok (choices : List String)
  | throw (msg : String)

/-- The fixed persona line of the composer's system prompt
(`src/server.js` line 251). -/
def basePersona : String :=
  "You are a helpful assistant that answers questions about the Cerebras Platform."

/-- Grounding instruction prefix added when context is present
(`src/server.js` line 254). -/
def groundedPrefix : String :=
  "\n\nUse the following context from the official Cerebras documentation to answer the user\x27s question accurately:\n\n"

/-- Grounding instruction suffix added when context is present. -/
def groundedSuffix : String := "\n\nBase your answer primarily on this documentation."

/-- Disclosure instruction added when context is absent
(`src/server.js` line 256). -/
def unavailableNote : String :=
  "\n\nNote: I couldn\x27t access the MCP server at this moment. Please inform the user that the documentation server is unavailable and you cannot provide specific information from the docs."

/-- The composer's system prompt (`src/server.js` lines 251-257): the source
guard is `if (context && context !== null)`, a truthiness test, so an absent
context and an empty-string context both select the disclosure branch. -/
def systemPromptFor : Option String → String
  | some c =>
    if c = "" then basePersona ++ unavailableNote
    else basePersona ++ groundedPrefix ++ c ++ groundedSuffix
  | none => basePersona ++ unavailableNote

/-- Embedding of `getCerebrasResponse(message, context)` (`src/server.js`
lines 249-287).  `composeOracle` models the chat-completion call, applied to
the system prompt and the user message.  A resolved completion with a first
choice returns that choice's content; a completion without choices raises
`Invalid response from Cerebras API`; an SDK error is logged and re-thrown —
either way the error propagates as `Except.error` with its message. -/
def getCerebrasResponse (composeOracle : String → String → ModelCall)
    (message : String) (context : Option String) : Except String String :=
  match composeOracle (systemPromptFor context) message with
  | ModelCall.ok (c :: _) => Except.ok c
  | ModelCall.ok [] => Except.error "Invalid response from Cerebras API"
  | ModelCall.throw msg => Except.error msg

/-- All the external outcomes one pipeline run can observe: the `JSON.parse`
behaviour, the three MCP round-trips, the selection-model reply (applied to
the analysis prompt; `none` models any throw absorbed by the selector), the
per-URL fetch outcomes, and the composer-model outcome (applied to the system
prompt and user message). -/
structure Env where
  jp : String → Option Json
  initRes : Option (Option String)
  toolsRes : Option (Option String)
  searchRes : Option (Option String)
  selOracle : String → Option String
  fetchOracle : Json → Option FetchData
  composeOracle : String → String → ModelCall

/-- Embedding of the pipeline body shared by the two entry points
(`src/server.js` lines 298-327 and the Netlify handler lines 317-360), after
the message guard: search; on a falsy search result (null or empty string)
compose with absent context; otherwise select URLs, fetch them when the
selection is non-empty, fall back to the search text when the fetched blob is
falsy, and compose. -/
def runChat (env : Env) (message : String) : Except String String :=
  match searchCerebrasDocs env.jp message env.initRes env.toolsRes env.searchRes with
  | none => getCerebrasResponse env.composeOracle message none
  | some searchResults =>
    if searchResults = "" then getCerebrasResponse env.composeOracle message none
    else
      let relevantUrls := analyzeSearchResults env.jp env.selOracle message searchResults
      let fullContext :=
        if relevantUrls.length > 0 then
          match fetchFullContent env.fetchOracle relevantUrls with
          | some fullContent => if fullContent = "" then searchResults else fullContent
          | none => searchResults
        else searchResults
      getCerebrasResponse env.composeOracle message (some fullContext)

/-- Response bodies produced by the two entry points (compared before JSON
serialisation; the Netlify handler `JSON.stringify`s the same object). -/
inductive ChatBody where
  | success (response : String)
  | failure (error : String) (response : String)
  | invalid (error : String)
  | preflight
deriving DecidableEq

/-- The caller-visible error text chosen by the `catch` blocks of both entry
points (`src/server.js` lines 333-341): an apology prefix plus API-key
guidance when the error message contains "401", model-selection guidance when
it contains "model", and generic retry guidance otherwise. -/
def chatErrorMessage (msg : String) : String :=
  "I apologize, but I encountered an error. " ++
    (if jsIncludes msg "401" then "Please check that your Cerebras API key is valid."
     else if jsIncludes msg "model" then "There might be an issue with the model selection."
     else "Please try again later or check the server logs for more details.")

/-- Embedding of the Express `/chat` handler (`src/server.js` lines 290-348):
`message` is the destructured request-body field (`none` when missing; the
guard `if (!message)` also rejects the empty string); the result is the HTTP
status and body. -/
def handleChatRequest (env : Env) (message : Option String) : Nat × ChatBody :=
  match message with
  | none => (400, ChatBody.invalid "Message is required")
  | some m =>
    if m = "" then (400, ChatBody.invalid "Message is required")
    else
      match runChat env m with
      | Except.ok response => (200, ChatBody.success response)
      | Except.error e =>
        (500, ChatBody.failure "Failed to process request" (chatErrorMessage e))

/-- HTTP method of a Netlify invocation. -/
inductive HttpMethod where
  | options
  | post
  | other
deriving DecidableEq

/-- Embedding of the Netlify handler (`src/unnamed/part_000` lines 280-388):
OPTIONS preflight answers 200 with an empty body; non-POST answers 405;
otherwise `parsedBody` is the outcome of `JSON.parse(event.body)` followed by
destructuring `message` (`Except.error e` when the parse threw inside the
`try`, whose message then flows through the common error mapping), and the
remainder duplicates the Express pipeline. -/
def netlifyHandler (env : Env) (method : HttpMethod)
    (parsedBody : Except String (Option String)) : Nat × ChatBody :=
  match method with
  | HttpMethod.options => (200, ChatBody.preflight)
  | HttpMethod.other => (405, ChatBody.invalid "Method not allowed")
  | HttpMethod.post =>
    match parsedBody with
    | Except.error e =>
      (500, ChatBody.failure "Failed to process request" (chatErrorMessage e))
    | Except.ok none => (400, ChatBody.invalid "Message is required")
    | Except.ok (some m) =>
      if m = "" then (400, ChatBody.invalid "Message is required")
      else
        match runChat env m with
        | Except.ok response => (200, ChatBody.success response)
        | Except.error e =>
          (500, ChatBody.failure "Failed to process request" (chatErrorMessage e))

/-- C1: when search returned non-absent, non-empty text and the URL selection
is non-empty, the context the composer receives is the fetched blob exactly
when the fetch returned non-absent text, and falls back to the original
search text when the fetch returned absent. -/
theorem chat_context_fallback (env : Env) (m sr : String)
    (hs : searchCerebrasDocs env.jp m env.initRes env.toolsRes env.searchRes = some sr)
    (hne : sr ≠ "")
    (hurls : analyzeSearchResults env.jp env.selOracle m sr ≠ []) :
    (fetchFullContent env.fetchOracle (analyzeSearchResults env.jp env.selOracle m sr) = none →
      runChat env m = getCerebrasResponse env.composeOracle m (some sr)) ∧
    (∀ fc,
      fetchFullContent env.fetchOracle (analyzeSearchResults env.jp env.selOracle m sr) = some fc →
      runChat env m = getCerebrasResponse env.composeOracle m (some fc)) := by
  have hlen : 0 < (analyzeSearchResults env.jp env.selOracle m sr).length :=
    List.length_pos.mpr hurls
  constructor
  · intro hf
    simp [runChat, hs, hne, hlen, hf]
  · intro fc hf
    have hfc : fc ≠ "" := fetchFullContent_ne_empty env.fetchOracle _ fc hf
    simp [runChat, hs, hne, hlen, hf, hfc]

/-- SSE payload for the C1 witness environment: valid JSON text whose parse
is `searchJsonC1`. -/
def ssePayloadC1 : String :=
  "\x7b\"result\":\x7b\"content\":[\x7b\"type\":\"text\",\"text\":\"Title: T\\nLink: u\"\x7d]\x7d\x7d"

/-- The parsed value of `ssePayloadC1`. -/
def searchJsonC1 : Json :=
  Json.obj [("result", Json.obj [("content", Json.arr
    [Json.obj [("type", Json.str "text"), ("text", Json.str "Title: T\nLink: u")]])])]

/-- `JSON.parse` oracle for the C1 witness: parses the SSE payload and the
selection reply, throws elsewhere. -/
def jpC1 : String → Option Json := fun s =>
  if s = ssePayloadC1 then some searchJsonC1
  else if s = "[\"u\"]" then some (Json.arr [Json.str "u"]) else none

/-- Environment for the C1 witness: the search call succeeds with one result,
the model selects one URL, and every per-URL fetch throws. -/
def envC1 : Env where
  jp := jpC1
  initRes := some (some "")
  toolsRes := some (some "")
  searchRes := some (some ("data: " ++ ssePayloadC1))
  selOracle := fun _ => some "[\"u\"]"
  fetchOracle := fun _ => none
  composeOracle := fun _ _ => ModelCall.ok ["answer"]

/-- C1 (witness): concrete run in which search succeeds, one URL is selected,
every fetch fails, and the composer receives the original search text. -/
theorem chat_context_fallback_witness :
    searchCerebrasDocs envC1.jp "q" envC1.initRes envC1.toolsRes envC1.searchRes =
      some "Title: T\nLink: u" ∧
    analyzeSearchResults envC1.jp envC1.selOracle "q" "Title: T\nLink: u" = [Json.str "u"] ∧
    fetchFullContent envC1.fetchOracle [Json.str "u"] = none ∧
    runChat envC1 "q" = getCerebrasResponse envC1.composeOracle "q" (some "Title: T\nLink: u") := by
  refine ⟨rfl, rfl, rfl, ?_⟩
  refine (chat_context_fallback envC1 "q" "Title: T\nLink: u" rfl (by decide) ?_).1 rfl
  intro h
  rw [show analyzeSearchResults envC1.jp envC1.selOracle "q" "Title: T\nLink: u" =
    [Json.str "u"] from rfl] at h
  exact List.noConfusion h

/-- C6: when the search client returns absent, the orchestrator composes with
absent context, whose system prompt is the fixed persona plus the disclosure
note instructing the model to tell the user the documentation server is
unavailable; a present non-empty context is instead embedded verbatim between
the grounding instructions. -/
theorem chat_absent_search_discloses (env : Env) (m : String)
    (hs : searchCerebrasDocs env.jp m env.initRes env.toolsRes env.searchRes = none) :
    runChat env m = getCerebrasResponse env.composeOracle m none ∧
    systemPromptFor none = basePersona ++ unavailableNote ∧
    jsIncludes (systemPromptFor none)
      "inform the user that the documentation server is unavailable" = true ∧
    (∀ c, c ≠ "" →
      systemPromptFor (some c) = basePersona ++ groundedPrefix ++ c ++ groundedSuffix) := by
  refine ⟨?_, rfl, ?_, ?_⟩
  · simp [runChat, hs]
  · decide
  · intro c hc
    simp [systemPromptFor, hc]

/-- Environment for the C6 witness: the MCP handshake throws. -/
def envC6 : Env where
  jp := fun _ => none
  initRes := none
  toolsRes := none
  searchRes := none
  selOracle := fun _ => none
  fetchOracle := fun _ => none
  composeOracle := fun _ _ => ModelCall.ok ["answer"]

/-- C6 (witness): with the handshake throwing, search is absent and the
pipeline composes with absent context. -/
theorem chat_absent_search_discloses_witness :
    searchCerebrasDocs envC6.jp "q" envC6.initRes envC6.toolsRes envC6.searchRes = none ∧
    runChat envC6 "q" = getCerebrasResponse envC6.composeOracle "q" none :=
  ⟨rfl, (chat_absent_search_discloses envC6 "q" rfl).1⟩

/-- C8: composition failure is propagated, not absorbed — the composer raises
when the model call throws or the completion has no choices, and the request
handler then answers 500 with a body whose `response` field is chosen by the
error text: API-key guidance when it contains "401", model-selection guidance
when it contains "model" (and not "401"), generic retry guidance otherwise. -/
theorem compose_failure_propagates :
    (∀ (co : String → String → ModelCall) (m : String) (ctx : Option String) (msg : String),
      co (systemPromptFor ctx) m = ModelCall.throw msg →
      getCerebrasResponse co m ctx = Except.error msg) ∧
    (∀ (co : String → String → ModelCall) (m : String) (ctx : Option String),
      co (systemPromptFor ctx) m = ModelCall.ok [] →
      getCerebrasResponse co m ctx = Except.error "Invalid response from Cerebras API") ∧
    (∀ (env : Env) (m e : String), m ≠ "" → runChat env m = Except.error e →
      handleChatRequest env (some m) =
        (500, ChatBody.failure "Failed to process request" (chatErrorMessage e))) ∧
    (∀ e, jsIncludes e "401" = true →
      chatErrorMessage e =
        "I apologize, but I encountered an error. Please check that your Cerebras API key is valid.") ∧
    (∀ e, jsIncludes e "401" = false → jsIncludes e "model" = true →
      chatErrorMessage e =
        "I apologize, but I encountered an error. There might be an issue with the model selection.") ∧
    (∀ e, jsIncludes e "401" = false → jsIncludes e "model" = false →
      chatErrorMessage e =
        "I apologize, but I encountered an error. Please try again later or check the server logs for more details.") := by
  refine ⟨?_, ?_, ?_, ?_, ?_, ?_⟩
  · intro co m ctx msg h
    simp [getCerebrasResponse, h]
  · intro co m ctx h
    simp [getCerebrasResponse, h]
  · intro env m e hm hr
    simp [handleChatRequest, hm, hr]
  · intro e h
    simp only [chatErrorMessage, h]
    rfl
  · intro e h1 h2
    simp only [chatErrorMessage, h1, h2]
    rfl
  · intro e h1 h2
    simp only [chatErrorMessage, h1, h2]
    rfl

/-- Environment for the C8 witness: the composer's model call throws a 401
error (all MCP calls also fail, so the pipeline reaches composition with
absent context). -/
def envC8 : Env where
  jp := fun _ => none
  initRes := none
  toolsRes := none
  searchRes := none
  selOracle := fun _ => none
  fetchOracle := fun _ => none
  composeOracle := fun _ _ => ModelCall.throw "Request failed with status code 401"

/-- C8 (witness): the 401-throwing run produces a 500 response whose
`response` field carries the API-key guidance. -/
theorem compose_failure_propagates_witness :
    runChat envC8 "q" = Except.error "Request failed with status code 401" ∧
    handleChatRequest envC8 (some "q") =
      (500, ChatBody.failure "Failed to process request"
        "I apologize, but I encountered an error. Please check that your Cerebras API key is valid.") := by
  constructor
  · rfl
  · have h3 := compose_failure_propagates.2.2.1 envC8 "q" "Request failed with status code 401"
      (by decide) rfl
    have h4 := compose_failure_propagates.2.2.2.1 "Request failed with status code 401" (by decide)
    rw [h3, h4]

/-- Modelled from the spec: the Express entry point's OPTIONS preflight is
handled by the `cors()` middleware (`app.use(cors())`, `src/server.js` line
16), whose implementation is not part of this repository; the spec requires
both entry points to implement "an OPTIONS preflight pass-through", i.e. to
answer preflight with a successful empty response (the middleware's default
status is 204 No Content). -/
def expressPreflight : Nat × ChatBody := (204, ChatBody.preflight)

/-- C9: for every environment and every request message, the Express handler
and the Netlify POST handler produce the same status and body — the same
pipeline result on success and the same error body on failure — and both
entry points answer an OPTIONS preflight with a successful (2xx) status. -/
theorem entry_points_equivalent (env : Env) (message : Option String)
    (parsedBody : Except String (Option String)) :
    handleChatRequest env message = netlifyHandler env HttpMethod.post (Except.ok message) ∧
    netlifyHandler env HttpMethod.options parsedBody = (200, ChatBody.preflight) ∧
    200 ≤ (netlifyHandler env HttpMethod.options parsedBody).1 ∧
    (netlifyHandler env HttpMethod.options parsedBody).1 < 300 ∧
    200 ≤ expressPreflight.1 ∧ expressPreflight.1 < 300 := by
  refine ⟨?_, rfl, ?_, ?_, by decide, by decide⟩
  · cases message <;> rfl
  · show (200 : Nat) ≤ 200
    decide
  · show (200 : Nat) < 300
    decide

/-- C10: a well-shaped query response (truthy envelope, truthy `result`,
`result.content` an array) whose textual entries join to the empty string
makes search return the empty string — not the sentinel — and the
orchestrator's falsiness check then treats this exactly like a transport
failure: the composer is invoked with absent context. -/
theorem empty_join_treated_as_absent (env : Env) (m : String)
    (d1 d2 d3 : Option String) (searchData resultVal contents : Json)
    (h1 : env.initRes = some d1) (h2 : env.toolsRes = some d2) (h3 : env.searchRes = some d3)
    (hparse : parseSSEResponse env.jp d3 = some searchData)
    (ht : jsTruthy searchData = true)
    (hres : jsField searchData "result" = some resultVal)
    (htr : jsTruthy resultVal = true)
    (hcon : jsField resultVal "content" = some contents)
    (harr : ∃ items, contents = Json.arr items ∧
      joinSep "\n\n---\n\n" ((items.filter isTextItem).map itemText) = "") :
    searchCerebrasDocs env.jp m env.initRes env.toolsRes env.searchRes = some "" ∧
    ("" : String) ≠ noDocsSentinel ∧
    runChat env m = getCerebrasResponse env.composeOracle m none := by
  obtain ⟨items, hc, hj⟩ := harr
  subst hc
  have hsearch : searchCerebrasDocs env.jp m env.initRes env.toolsRes env.searchRes = some "" := by
    rw [h1, h2, h3]
    simp only [searchCerebrasDocs, extractSearchText, hparse, ht, hres, htr, hcon]
    simp [jsTruthy, hj]
  refine ⟨hsearch, by decide, ?_⟩
  simp [runChat, hsearch]

/-- SSE payload for the C10 witness: a well-shaped response whose content
array is empty. -/
def ssePayloadC10 : String := "\x7b\"result\":\x7b\"content\":[]\x7d\x7d"

/-- `JSON.parse` oracle for the C10 witness. -/
def jpC10 : String → Option Json := fun s =>
  if s = ssePayloadC10 then some (Json.obj [("result", Json.obj [("content", Json.arr [])])])
  else none

/-- Environment for the C10 witness. -/
def envC10 : Env where
  jp := jpC10
  initRes := some (some "")
  toolsRes := some (some "")
  searchRes := some (some ("data: " ++ ssePayloadC10))
  selOracle := fun _ => none
  fetchOracle := fun _ => none
  composeOracle := fun _ _ => ModelCall.ok ["answer"]

/-- C10 (witness): with a well-shaped query response carrying an empty
content array, search returns the empty string and the pipeline composes with
absent context. -/
theorem empty_join_treated_as_absent_witness :
    searchCerebrasDocs envC10.jp "q" envC10.initRes envC10.toolsRes envC10.searchRes = some "" ∧
    runChat envC10 "q" = getCerebrasResponse envC10.composeOracle "q" none := by
  have h := empty_join_treated_as_absent envC10 "q" (some "") (some "")
    (some ("data: " ++ ssePayloadC10))
    (Json.obj [("result", Json.obj [("content", Json.arr [])])])
    (Json.obj [("content", Json.arr [])]) (Json.arr [])
    rfl rfl rfl rfl rfl rfl rfl rfl ⟨[], rfl, rfl⟩
  exact ⟨h.1, h.2.2⟩
